import Mathlib

/-!
Shallow embedding of the pictogram resolution and cache engine
(`backend/src/services/pictograms.rs`) and proofs about its behaviour.

Rust strings are modelled as `List Char`; byte lengths (`str::len`) are
computed from the UTF-8 width of each scalar, and byte-level substring
tests coincide with scalar-level tests on valid UTF-8, so list-of-scalar
operations are faithful.  Database reads are modelled as total queries
over in-memory tables held in a `World`; failure of the store is modelled
where the source models it (the `ensure_pictograms_table` guard and the
upsert execution), network traffic through explicit per-call outcomes.
-/

namespace Pictograms

abbrev Str := List Char

/-- White_Space code points, matching Rust's `char::is_whitespace`. -/
def isRustWhitespace (c : Char) : Bool :=
  let n := c.toNat
  (0x09 ≤ n && n ≤ 0x0D) || n == 0x20 || n == 0x85 || n == 0xA0 || n == 0x1680 ||
  (0x2000 ≤ n && n ≤ 0x200A) || n == 0x2028 || n == 0x2029 || n == 0x202F ||
  n == 0x205F || n == 0x3000

/-- ASCII alphanumeric test, matching Rust's `char::is_ascii_alphanumeric`. -/
def isAsciiAlnum (c : Char) : Bool :=
  (0x30 ≤ c.toNat && c.toNat ≤ 0x39) ||
  (0x41 ≤ c.toNat && c.toNat ≤ 0x5A) ||
  (0x61 ≤ c.toNat && c.toNat ≤ 0x7A)

/-- ASCII lowercasing of one character, matching Rust's `to_ascii_lowercase`. -/
def asciiLowerChar (c : Char) : Char :=
  if 0x41 ≤ c.toNat ∧ c.toNat ≤ 0x5A then Char.ofNat (c.toNat + 32) else c

/-- ASCII lowercasing of a string, matching Rust's `str::to_ascii_lowercase`. -/
def lowerAscii (s : Str) : Str := s.map asciiLowerChar

/-- UTF-8 byte width of one scalar value. -/
def utf8CharLen (c : Char) : Nat :=
  if c.toNat < 0x80 then 1
  else if c.toNat < 0x800 then 2
  else if c.toNat < 0x10000 then 3
  else 4

/-- Byte length of a string, matching Rust's `str::len`. -/
def utf8Len (s : Str) : Nat := (s.map utf8CharLen).sum

/-- Boolean prefix test: `isPrefixList p s` holds when `p` is a prefix of `s`
(Rust's `s.starts_with(p)`). -/
def isPrefixList : Str → Str → Bool
  | [], _ => true
  | _ :: _, [] => false
  | a :: p, b :: s => a == b && isPrefixList p s

/-- Boolean substring test: `containsList s sub` holds when `sub` occurs
contiguously inside `s` (Rust's `s.contains(sub)`). -/
def containsList : Str → Str → Bool
  | [], sub => isPrefixList sub []
  | c :: rest, sub => isPrefixList sub (c :: rest) || containsList rest sub

/-- Strip a literal prefix, matching Rust's `str::strip_prefix`. -/
def stripPrefixList : Str → Str → Option Str
  | [], s => some s
  | _ :: _, [] => none
  | a :: p, b :: s => if a == b then stripPrefixList p s else none

/-- Trim leading and trailing whitespace, matching Rust's `str::trim`. -/
def trimList (s : Str) : Str :=
  ((s.dropWhile isRustWhitespace).reverse.dropWhile isRustWhitespace).reverse

def splitWsAux : Str → Str → List Str
  | [], acc => if acc.isEmpty then [] else [acc.reverse]
  | c :: rest, acc =>
    if isRustWhitespace c then
      if acc.isEmpty then splitWsAux rest []
      else acc.reverse :: splitWsAux rest []
    else splitWsAux rest (c :: acc)

/-- Split on whitespace discarding empty pieces, matching Rust's
`str::split_whitespace`. -/
def splitWs (s : Str) : List Str := splitWsAux s []

/-- Join a list of strings with a separator, matching Rust's `slice::join`. -/
def joinWith (sep : Str) : List Str → Str
  | [] => []
  | [x] => x
  | x :: y :: xs => x ++ sep ++ joinWith sep (y :: xs)

/-- Fuzzy relevance score of a haystack against a query (`fuzzy_score`). -/
def fuzzy_score (query haystack : Str) : Nat :=
  let q := lowerAscii query
  let h := lowerAscii haystack
  if h == q then 1000
  else if isPrefixList q h then 700
  else if containsList h q then 400
  else
    let hits := ((splitWs q).filter (fun t => !t.isEmpty && containsList h t)).length
    hits * 80

/-- Slugify a category hint into a directory segment (`sanitize_segment`):
kept characters are ASCII alphanumerics, `-` and `_` (lower-cased), whitespace
becomes `-`, every other character is skipped; then `-` is trimmed from both
ends and an empty result becomes `"uncategorized"`. -/
def sanitize_segment (input : Str) : Str :=
  let out : Str := input.foldr
    (fun c acc =>
      if isAsciiAlnum c || c == '-' || c == '_' then asciiLowerChar c :: acc
      else if isRustWhitespace c then '-' :: acc
      else acc)
    []
  let trimmed := ((out.dropWhile (· == '-')).reverse.dropWhile (· == '-')).reverse
  if trimmed.isEmpty then "uncategorized".toList else trimmed

/-- Language normalization (`normalize_language`): trim, ASCII lowercase,
default to `"en"` when shorter than two bytes. -/
def normalize_language (language : Str) : Str :=
  let l := lowerAscii (trimList language)
  if 2 ≤ utf8Len l then l else "en".toList

/-- Characters stripped by `to_fulltext_boolean` because they carry special
meaning in MySQL FULLTEXT BOOLEAN MODE. -/
def isFtSpecial (c : Char) : Bool :=
  c == '+' || c == '-' || c == '>' || c == '<' || c == '(' || c == ')' ||
  c == '~' || c == '*' || c == '"' || c == '@' || c == '\\'

/-- Convert a free-text query into a FULLTEXT BOOLEAN MODE expression
(`to_fulltext_boolean`): special characters become spaces, tokens shorter
than two bytes are dropped, remaining tokens become prefix terms. -/
def to_fulltext_boolean (query : Str) : Str :=
  let stripped := query.map (fun c => if isFtSpecial c then ' ' else c)
  joinWith [' ']
    (((splitWs stripped).filter (fun t => 2 ≤ utf8Len t)).map (fun t => t ++ ['*']))

/-- Split on the `"||"` delimiter (`split_tokens` before trim/filter). -/
def splitOnBars : Str → Str → List Str
  | [], acc => [acc.reverse]
  | '|' :: '|' :: rest, acc => acc.reverse :: splitOnBars rest []
  | c :: rest, acc => splitOnBars rest (c :: acc)

/-- Tokenize a stored `||`-joined text column (`split_tokens`). -/
def split_tokens (s : Str) : List Str :=
  ((splitOnBars s []).map trimList).filter (fun x => !x.isEmpty)

/-- Join tokens into a `||`-separated text column (`join_tokens`). -/
def join_tokens (values : List Str) : Str :=
  joinWith "||".toList ((values.map trimList).filter (fun v => !v.isEmpty))

/-- Lexicographic order on scalar values; UTF-8 byte order on Rust `String`s
coincides with scalar-value order, so this matches `Ord for String`. -/
def lexLe : Str → Str → Bool
  | [], _ => true
  | _ :: _, [] => false
  | a :: as_, b :: bs =>
    if a.toNat < b.toNat then true
    else if a.toNat = b.toNat then lexLe as_ bs
    else false

/-- Remove adjacent duplicates, matching Rust's `Vec::dedup`. -/
def dedupAdj : List Str → List Str
  | [] => []
  | [x] => [x]
  | x :: y :: rest => if x == y then dedupAdj (y :: rest) else x :: dedupAdj (y :: rest)

/-- One keyword entry of an origin pictogram (`ArasaacKeyword`). -/
structure ArasaacKeyword where
  keyword : Option Str
  plural : Option Str
  meaning : Option Str
deriving Repr, DecidableEq

/-- An origin pictogram as parsed from the remote service (`ArasaacPictogram`). -/
structure ArasaacPictogram where
  id : Int
  keywords : List ArasaacKeyword
  categories : List Str
  tags : List Str
  desc : Option Str
deriving Repr, DecidableEq

def keywordCandidates (k : ArasaacKeyword) : List Str :=
  [k.keyword, k.plural, k.meaning].filterMap id

/-- Trimmed, non-empty keyword/plural/meaning values of a pictogram, in the
origin's order, before sorting and deduplication. -/
def collectedKeywordTokens (p : ArasaacPictogram) : List Str :=
  ((p.keywords.flatMap keywordCandidates).map trimList).filter (fun v => !v.isEmpty)

/-- Keyword tokens of an origin pictogram (`extract_keyword_tokens`): the
collected tokens are sorted (`Vec::sort`, stable, lexicographic) and adjacent
duplicates removed (`Vec::dedup`). -/
def extract_keyword_tokens (p : ArasaacPictogram) : List Str :=
  dedupAdj (List.insertionSort (fun a b => lexLe a b = true) (collectedKeywordTokens p))

/-- Metadata record returned to callers (`PictogramDto`). -/
structure PictogramDto where
  arasaac_id : Int
  keywords : List Str
  category : Option Str
  categories : List Str
  tags : List Str
  language : Str
  image_url : Option Str
  local_file_path : Option Str
  width : Option Int
  height : Option Int
  license : Str
  description : Option Str
deriving Repr, DecidableEq

/-- A row of the `pictograms` table as selected by the queries
(`PictogramRow`), plus the `updated_at` column used for ordering. -/
structure PictogramRow where
  arasaac_id : Int
  keywords_text : Str
  category : Option Str
  categories_text : Option Str
  tags_text : Option Str
  language : Str
  image_url : Option Str
  local_file_path : Option Str
  width : Option Int
  height : Option Int
  license : Str
  description : Option Str
  updated_at : Nat
deriving Repr, DecidableEq

def DEFAULT_LICENSE : Str :=
  "CC BY-NC-SA 4.0 (ARASAAC / Gobierno de Aragón; author Sergio Palao)".toList

def STORE_ROOT : Str := "backend/assets_seed/pictograms".toList

def assetPublicBase : Str := "/assets/pictograms/".toList

/-- Map a public asset path to its on-disk path (`disk_path_from_public_path`):
strip the fixed public prefix and prepend the store root. -/
def disk_path_from_public_path (publicPath : Str) : Option Str :=
  (stripPrefixList assetPublicBase publicPath).map (fun suffix => STORE_ROOT ++ '/' :: suffix)

/-- Remote raster asset URL for an id (`build_remote_png_url`). -/
def build_remote_png_url (arasaac_id : Int) : Str :=
  "https://static.arasaac.org/pictograms/".toList ++ (toString arasaac_id).toList ++
    ['/'] ++ (toString arasaac_id).toList ++ "_500.png".toList

/-- Convert a stored row to the caller-facing record (`row_to_dto`). -/
def row_to_dto (row : PictogramRow) : PictogramDto :=
  { arasaac_id := row.arasaac_id
    keywords := split_tokens row.keywords_text
    category := row.category
    categories := split_tokens (row.categories_text.getD [])
    tags := split_tokens (row.tags_text.getD [])
    language := row.language
    image_url := row.image_url
    local_file_path := row.local_file_path
    width := row.width
    height := row.height
    license := row.license
    description := row.description }

/-- Map a raw origin hit directly to a caller-facing record (`remote_to_dto`). -/
def remote_to_dto (language : Str) (p : ArasaacPictogram) : PictogramDto :=
  { arasaac_id := p.id
    keywords := extract_keyword_tokens p
    category := p.categories.head?
    categories := p.categories
    tags := p.tags
    language := language
    image_url := some (build_remote_png_url p.id)
    local_file_path := none
    width := none
    height := none
    license := DEFAULT_LICENSE
    description := p.desc }

/-- Modelled from the spec: the error taxonomy of §7.  The enum itself
(`errors.rs`) is not among the sources; the spec names the four kinds
`BadRequest`, `NotFound`, `RateLimited` and `Internal`, with `RateLimited`
distinct from the others.  Message payloads follow the construction sites
in `pictograms.rs`. -/
inductive AppError where
  | BadRequest (msg : Str)
  | NotFound
  | RateLimited
  | Internal (msg : Str)
deriving Repr, DecidableEq

/-- Outcome of one origin HTTP request as observed by `fetch_remote_vec`:
either a transport failure or a response with a status code and a body that
may or may not parse as a pictogram list. -/
inductive HttpOutcome where
  | transportError
  | response (status : Nat) (body : Option (List ArasaacPictogram))
deriving Repr, DecidableEq

def rateLimitMsg : Str := "ARASAAC rate limit reached. Please retry shortly.".toList

/-- Status test matching `reqwest::StatusCode::is_success` (2xx). -/
def isSuccessStatus (status : Nat) : Bool := 200 ≤ status && status ≤ 299

/-- The shared remote-fetch helper (`fetch_remote_vec`): transport failure is
`Internal`, 429 raises `BadRequest` with the rate-limit message, 404 means an
empty result, any other non-2xx is `Internal`, and an unparsable body of a
2xx response is `Internal`. -/
def fetch_remote_vec (o : HttpOutcome) : Except AppError (List ArasaacPictogram) :=
  match o with
  | .transportError => .error (.Internal "ARASAAC request failed".toList)
  | .response status body =>
    if status == 429 then .error (.BadRequest rateLimitMsg)
    else if status == 404 then .ok []
    else if !isSuccessStatus status then
      .error (.Internal "ARASAAC request failed with status".toList)
    else
      match body with
      | some list => .ok list
      | none => .error (.Internal "Failed to parse ARASAAC response".toList)

/-- Outcome of one origin asset request (SVG or PNG download): transport
failure, or a response with a success flag, a content type and whether the
body bytes can be read. -/
inductive AssetResp where
  | transportError
  | response (success : Bool) (contentType : Str) (bytesOk : Bool)
deriving Repr, DecidableEq

/-- Modelled from the spec: a row of the `saved_pictograms` bookmark table.
The table's migration is not among the sources; per §3 it binds a user to a
pictogram id with an optional label and a use counter starting at zero, with
a unique key on the (user, pictogram id) pair. -/
structure SavedPictogramRow where
  user_id : Str
  arasaac_id : Int
  label : Option Str
  used_count : Int
deriving Repr, DecidableEq

/-- A row of the `visual_support_activity_library` table as consulted by
`ensure_seeded_activity_assets`. -/
structure SeedRow where
  is_system : Bool
  arasaac_id : Option Int
  local_image_path : Option Str
deriving Repr, DecidableEq

/-- Execution run result of one prefetch batch (`PictogramPrefetchRunResultDto`). -/
structure PictogramPrefetchRunResultDto where
  processed_ids : Nat
  downloaded : Nat
  already_cached : Nat
  hydrated_seeded : Nat
  idle_seconds : Nat
deriving Repr, DecidableEq

/-- The prefetch settings singleton row (`PrefetchSettingsRow`). -/
structure PrefetchSettingsRow where
  enabled : Bool
  idle_minutes : Int
  batch_size : Int
deriving Repr, DecidableEq

/-- The environment one engine call runs in: the local store tables, the
on-disk asset tree, and the origin's responses.  Reads of the store are
modelled as total queries; store failure is modelled where the source
detects it (the `ensure_pictograms_table` guard and the upsert execution),
directory creation and file writes as succeeding, and the MySQL FULLTEXT
relevance engine as the oracle predicate `ftMatch`. -/
structure World where
  ensurePictogramsOk : Bool
  pictRows : List PictogramRow
  savedPictograms : List SavedPictogramRow
  activityLib : List SeedRow
  fsFiles : List Str
  time : Nat
  originById : Str → Int → HttpOutcome
  originBest : HttpOutcome
  originSearch : HttpOutcome
  upsertExecOk : Int → Bool
  svgAsset : Int → AssetResp
  pngAsset : Int → AssetResp
  ftMatch : Str → PictogramRow → Bool
  lastRunResult : Option PictogramPrefetchRunResultDto

/-- File existence re-check (`local_path_exists`): map the public path to a
disk path and test the filesystem. -/
def local_path_exists (w : World) (publicPath : Str) : Bool :=
  match disk_path_from_public_path publicPath with
  | some disk => w.fsFiles.contains disk
  | none => false

/-- Exact-id lookup (`query_local_by_id`): first row with the id, mapped. -/
def query_local_by_id (w : World) (arasaac_id : Int) : Option PictogramDto :=
  (w.pictRows.find? (fun r => r.arasaac_id == arasaac_id)).map row_to_dto

/-- Lookup of several ids in order (`query_local_by_ids`). -/
def query_local_by_ids (w : World) (ids : List Int) : List PictogramDto :=
  ids.filterMap (query_local_by_id w)

/-- One `LOWER(col) LIKE '%query%'` disjunct set of `query_local_like`; a
NULL column never matches.  LIKE metacharacters inside the query are not
modelled (the claims use plain text queries). -/
def likeMatches (q : Str) (r : PictogramRow) : Bool :=
  let pat := lowerAscii q
  containsList (lowerAscii r.keywords_text) pat ||
  (match r.categories_text with | some t => containsList (lowerAscii t) pat | none => false) ||
  (match r.tags_text with | some t => containsList (lowerAscii t) pat | none => false) ||
  (match r.description with | some t => containsList (lowerAscii t) pat | none => false)

/-- Substring search (`query_local_like`): case-insensitive contains across
the four text columns, most recently updated first, capped at 60 rows. -/
def query_local_like (w : World) (language q : Str) : List PictogramDto :=
  let rows := w.pictRows.filter (fun r => r.language == language && likeMatches q r)
  ((List.insertionSort (fun a b => b.updated_at ≤ a.updated_at) rows).take 60).map row_to_dto

/-- Branch condition of `query_local`: the structured FULLTEXT path is taken
iff the query is at least four bytes and the boolean expression is non-empty. -/
def usesFulltextSearch (query : Str) : Bool :=
  !(utf8Len query < 4 || (to_fulltext_boolean query).isEmpty)

/-- Local text search (`query_local`): use the structured FULLTEXT query only
when `usesFulltextSearch`, falling back to the substring scan when it is not
used or returns zero rows.  Row capping mirrors `LIMIT 60`. -/
def query_local (w : World) (language query : Str) : List PictogramDto :=
  if usesFulltextSearch query then
    let rows := (w.pictRows.filter
      (fun r => r.language == language && w.ftMatch (to_fulltext_boolean query) r)).take 60
    if rows.isEmpty then query_local_like w language query
    else rows.map row_to_dto
  else query_local_like w language query

def svgRemoteUrl (arasaac_id : Int) : Str :=
  "https://static.arasaac.org/pictograms/".toList ++ (toString arasaac_id).toList ++
    ['/'] ++ (toString arasaac_id).toList ++ ".svg".toList

/-- Public reference path of a materialized asset. -/
def publicAssetPath (slug : Str) (arasaac_id : Int) (ext : Str) : Str :=
  assetPublicBase ++ slug ++ '/' :: (toString arasaac_id).toList ++ '.' :: ext

/-- On-disk path of a materialized asset (`{STORE_ROOT}/{slug}/{id}.{ext}`). -/
def diskAssetPath (slug : Str) (arasaac_id : Int) (ext : Str) : Str :=
  STORE_ROOT ++ '/' :: slug ++ '/' :: (toString arasaac_id).toList ++ '.' :: ext

/-- PNG fallback leg of `download_pictogram_asset`: a non-success status is a
partial result (origin URL, no local path), not an error. -/
def downloadPngStep (w : World) (slug : Str) (arasaac_id : Int) (calls : Nat) :
    Except AppError (Option Str × Option Str) × World × Nat :=
  let png_url := build_remote_png_url arasaac_id
  match w.pngAsset arasaac_id with
  | .transportError =>
    (.error (.Internal "Failed downloading ARASAAC PNG".toList), w, calls + 1)
  | .response success _ bytesOk =>
    if !success then (.ok (some png_url, none), w, calls + 1)
    else if bytesOk then
      (.ok (some png_url, some (publicAssetPath slug arasaac_id "png".toList)),
       { w with fsFiles := diskAssetPath slug arasaac_id "png".toList :: w.fsFiles }, calls + 1)
    else (.error (.Internal "Failed reading ARASAAC PNG bytes".toList), w, calls + 1)

/-- Asset materialization (`download_pictogram_asset`): slugify the category
hint, try the vector asset first and accept it only when the content type
indicates SVG/XML, otherwise fall back to the raster asset. -/
def download_pictogram_asset (w : World) (arasaac_id : Int) (category : Option Str) :
    Except AppError (Option Str × Option Str) × World × Nat :=
  let slug := sanitize_segment (category.getD "uncategorized".toList)
  match w.svgAsset arasaac_id with
  | .response true ct bytesOk =>
    if containsList (lowerAscii ct) "svg".toList || containsList (lowerAscii ct) "xml".toList then
      if bytesOk then
        (.ok (some (svgRemoteUrl arasaac_id), some (publicAssetPath slug arasaac_id "svg".toList)),
         { w with fsFiles := diskAssetPath slug arasaac_id "svg".toList :: w.fsFiles }, 1)
      else (.error (.Internal "Failed reading ARASAAC SVG bytes".toList), w, 1)
    else downloadPngStep w slug arasaac_id 1
  | .response false _ _ => downloadPngStep w slug arasaac_id 1
  | .transportError => downloadPngStep w slug arasaac_id 1

/-- The row written by `upsert_remote_pictogram` for an origin pictogram. -/
def rowFromRemote (time : Nat) (language : Str) (p : ArasaacPictogram)
    (image_url local_file_path : Option Str) : PictogramRow :=
  { arasaac_id := p.id
    keywords_text := join_tokens (extract_keyword_tokens p)
    category := p.categories.head?
    categories_text := some (join_tokens p.categories)
    tags_text := some (join_tokens p.tags)
    language := language
    image_url := image_url
    local_file_path := local_file_path
    width := none
    height := none
    license := DEFAULT_LICENSE
    description := p.desc
    updated_at := time }

/-- Replace-on-conflict semantics of `INSERT .. ON DUPLICATE KEY UPDATE` on
the `arasaac_id` unique key. -/
def upsertRow (rows : List PictogramRow) (r : PictogramRow) : List PictogramRow :=
  if rows.any (fun x => x.arasaac_id == r.arasaac_id) then
    rows.map (fun x => if x.arasaac_id == r.arasaac_id then r else x)
  else rows ++ [r]

/-- Write-back of an origin pictogram (`upsert_remote_pictogram`): keep an
already-materialized asset whose file still exists, otherwise download, then
execute the replace-on-conflict insert (whose execution may fail). -/
def upsert_remote_pictogram (w : World) (language : Str) (p : ArasaacPictogram) :
    Except AppError Unit × World × Nat :=
  let existingPath := (w.pictRows.find? (fun r => r.arasaac_id == p.id)).bind
    (fun r => r.local_file_path)
  let assetStep : Except AppError (Option Str × Option Str) × World × Nat :=
    match existingPath with
    | some path =>
      if local_path_exists w path then ((.ok (some (build_remote_png_url p.id), some path)), w, 0)
      else download_pictogram_asset w p.id p.categories.head?
    | none => download_pictogram_asset w p.id p.categories.head?
  match assetStep with
  | (.error e, w', n) => (.error e, w', n)
  | (.ok (image_url, local_file_path), w', n) =>
    if w.upsertExecOk p.id then
      (.ok (),
       { w' with
          pictRows := upsertRow w'.pictRows (rowFromRemote w'.time language p image_url local_file_path)
          time := w'.time + 1 }, n)
    else (.error (.Internal "caching failed".toList), w', n)

/-- Cache-hit test of `get_or_fetch_by_id`: a local row whose asset reference
resolves to an existing file, when the store is available. -/
def localVerifiedHit (w : World) (arasaac_id : Int) : Option PictogramDto :=
  if w.ensurePictogramsOk then
    match query_local_by_id w arasaac_id with
    | some localDto =>
      match localDto.local_file_path with
      | some path => if local_path_exists w path then some localDto else none
      | none => none
    | none => none
  else none

/-- The resolver's by-id operation (`get_or_fetch_by_id`): reject non-positive
ids, return a verified local hit immediately, otherwise fetch from the origin
(`fetch_remote_vec` then `Vec::pop`), upsert (degrading to the direct origin
mapping when the upsert fails or the store is unavailable) and re-read.  The
third component counts origin network calls. -/
def get_or_fetch_by_id (w : World) (language : Str) (arasaac_id : Int) :
    Except AppError PictogramDto × World × Nat :=
  if arasaac_id ≤ 0 then (.error (.BadRequest "Invalid pictogram id".toList), w, 0)
  else
    match localVerifiedHit w arasaac_id with
    | some localDto => (.ok localDto, w, 0)
    | none =>
      let lang := normalize_language language
      match fetch_remote_vec (w.originById lang arasaac_id) with
      | .error e => (.error e, w, 1)
      | .ok list =>
        match list.getLast? with
        | none => (.error .NotFound, w, 1)
        | some remote =>
          if w.ensurePictogramsOk then
            match upsert_remote_pictogram w lang remote with
            | (.error _, w', n) => (.ok (remote_to_dto lang remote), w', 1 + n)
            | (.ok _, w', n) =>
              match query_local_by_id w' arasaac_id with
              | some dto => (.ok dto, w', 1 + n)
              | none => (.error .NotFound, w', 1 + n)
          else (.ok (remote_to_dto lang remote), w, 1)

/-- Origin keyword search (`fetch_remote_search`): best-match endpoint first,
falling back to the broader search endpoint when it returns nothing. -/
def fetch_remote_search (w : World) : Except AppError (List ArasaacPictogram) × Nat :=
  match fetch_remote_vec w.originBest with
  | .error e => (.error e, 1)
  | .ok best =>
    if !best.isEmpty then (.ok best, 1)
    else
      match fetch_remote_vec w.originSearch with
      | .error e => (.error e, 2)
      | .ok s => (.ok s, 2)

/-- The write-back loop of `search_local_first`: upsert every origin hit,
swallowing (logging) individual failures. -/
def upsertAll (language : Str) : World → List ArasaacPictogram → World × Nat
  | w, [] => (w, 0)
  | w, p :: rest =>
    let step := upsert_remote_pictogram w language p
    let next := upsertAll language step.2.1 rest
    (next.1, step.2.2 + next.2)

/-- The searchable text a record is scored on: the space-joined keyword,
category and tag lists and the description, space-separated (the
`format!` in `sort_by_fuzzy_score`). -/
def dtoHaystack (a : PictogramDto) : Str :=
  joinWith [' '] a.keywords ++ ' ' :: joinWith [' '] a.categories ++
    ' ' :: joinWith [' '] a.tags ++ ' ' :: a.description.getD []

/-- Fuzzy re-ranking (`sort_by_fuzzy_score`): Rust's `sort_by` is a stable
sort under the comparator `score(b).cmp(score(a))`, i.e. descending by score
with ties keeping prior order; a stable insertion sort computes the same
unique result. -/
def sort_by_fuzzy_score (items : List PictogramDto) (query : Str) : List PictogramDto :=
  List.insertionSort
    (fun a b => fuzzy_score query (dtoHaystack b) ≤ fuzzy_score query (dtoHaystack a)) items

/-- The resolver's search operation (`search_local_first`). -/
def search_local_first (w : World) (language query : Str) :
    Except AppError (List PictogramDto) × World × Nat :=
  let lang := normalize_language language
  let q := trimList query
  if q.isEmpty then (.error (.BadRequest "Query cannot be empty".toList), w, 0)
  else if w.ensurePictogramsOk && !(query_local w lang q).isEmpty then
    (.ok (sort_by_fuzzy_score (query_local w lang q) q), w, 0)
  else
    match fetch_remote_search w with
    | (.error e, n) => (.error e, w, n)
    | (.ok remote, n) =>
      if remote.isEmpty then (.ok [], w, n)
      else if !w.ensurePictogramsOk then
        (.ok (sort_by_fuzzy_score (remote.map (remote_to_dto lang)) q), w, n)
      else
        let step := upsertAll lang w remote
        let hydrated := query_local step.1 lang q
        let hydrated2 :=
          if hydrated.isEmpty then query_local_by_ids step.1 (remote.map (fun p => p.id))
          else hydrated
        (.ok (sort_by_fuzzy_score hydrated2 q), step.1, n + step.2)

/-- Cached-and-verified test of the prefetch batch
(`is_arasaac_id_cached_locally`): the local row's asset file must exist. -/
def is_arasaac_id_cached_locally (w : World) (arasaac_id : Int) : Bool :=
  match (w.pictRows.find? (fun r => r.arasaac_id == arasaac_id)).bind
      (fun r => r.local_file_path) with
  | some path => local_path_exists w path
  | none => false

/-- The filename extension as computed by `Path::extension` (lower-cased by
the caller, defaulting to `png`). -/
def extOf (p : Str) : Option Str :=
  let name := (p.reverse.takeWhile (fun c => c != '/')).reverse
  let revname := name.reverse
  let afterDot := revname.takeWhile (fun c => c != '.')
  if afterDot.length = revname.length then none
  else if revname.length - afterDot.length - 1 = 0 then none
  else some afterDot.reverse

/-- Seed hydration of one referenced asset (`download_to_public_path`). -/
def download_to_public_path (w : World) (arasaac_id : Int) (publicPath : Str) :
    Except AppError Bool × World × Nat :=
  if !isPrefixList assetPublicBase publicPath then (.ok false, w, 0)
  else
    match disk_path_from_public_path publicPath with
    | none => (.ok false, w, 0)
    | some disk =>
      let ext := lowerAscii ((extOf disk).getD "png".toList)
      if ext == "svg".toList then
        match w.svgAsset arasaac_id with
        | .transportError =>
          (.error (.Internal "Failed downloading seeded ARASAAC SVG".toList), w, 1)
        | .response success _ bytesOk =>
          if success then
            if bytesOk then (.ok true, { w with fsFiles := disk :: w.fsFiles }, 1)
            else (.error (.Internal "Failed reading seeded ARASAAC SVG bytes".toList), w, 1)
          else (.ok false, w, 1)
      else
        match w.pngAsset arasaac_id with
        | .transportError =>
          (.error (.Internal "Failed downloading seeded ARASAAC PNG".toList), w, 1)
        | .response success _ bytesOk =>
          if success then
            if bytesOk then (.ok true, { w with fsFiles := disk :: w.fsFiles }, 1)
            else (.error (.Internal "Failed reading seeded ARASAAC PNG bytes".toList), w, 1)
          else (.ok false, w, 1)

/-- The rows selected by `ensure_seeded_activity_assets`: system cards with a
non-null id and a public asset path under the pictogram prefix. -/
def seedQueryRows (w : World) : List (Int × Str) :=
  w.activityLib.filterMap (fun r =>
    match r.arasaac_id, r.local_image_path with
    | some id, some p =>
      if r.is_system && isPrefixList assetPublicBase p then some (id, p) else none
    | _, _ => none)

/-- Per-row hydration loop of `ensure_seeded_activity_assets`: skip existing
files, count successful hydrations, log-and-continue on failure. -/
def seedLoop : World → List (Int × Str) → Nat × World × Nat
  | w, [] => (0, w, 0)
  | w, (id, p) :: rest =>
    if local_path_exists w p then seedLoop w rest
    else
      match download_to_public_path w id p with
      | (.ok true, w1, n1) =>
        let next := seedLoop w1 rest
        (next.1 + 1, next.2.1, n1 + next.2.2)
      | (.ok false, w1, n1) =>
        let next := seedLoop w1 rest
        (next.1, next.2.1, n1 + next.2.2)
      | (.error _, w1, n1) =>
        let next := seedLoop w1 rest
        (next.1, next.2.1, n1 + next.2.2)

/-- Startup/prefetch hydration of seeded card assets
(`ensure_seeded_activity_assets`). -/
def ensure_seeded_activity_assets (w : World) : Nat × World × Nat :=
  seedLoop w (seedQueryRows w)

def clampNat (v lo hi : Nat) : Nat := min (max v lo) hi

/-- Candidate gathering of the prefetch batch (`load_prefetch_candidate_ids`):
the SQL `SELECT DISTINCT .. UNION .. ORDER BY arasaac_id ASC LIMIT ?` over the
card library, the bookmarks and the local store, with the limit clamped to
[1, 2000]. -/
def load_prefetch_candidate_ids (w : World) (batch_size : Nat) : List Int :=
  let limit := clampNat batch_size 1 2000
  let all := (w.activityLib.filterMap (fun r => r.arasaac_id)) ++
             (w.savedPictograms.map (fun r => r.arasaac_id)) ++
             (w.pictRows.map (fun r => r.arasaac_id))
  (List.insertionSort (fun a b => a ≤ b) all.dedup).take limit

/-- Per-id loop of `prefetch_once_internal`, returning
(processed, downloaded, already_cached) counters: verified-cached ids are
skipped, others resolved, and an individual failure is logged without
aborting the rest of the batch. -/
def prefetch_loop : World → List Int → (Nat × Nat × Nat) × World × Nat
  | w, [] => ((0, 0, 0), w, 0)
  | w, id :: rest =>
    if is_arasaac_id_cached_locally w id then
      let next := prefetch_loop w rest
      ((next.1.1 + 1, next.1.2.1, next.1.2.2 + 1), next.2.1, next.2.2)
    else
      match get_or_fetch_by_id w "en".toList id with
      | (.ok dto, w1, n1) =>
        let hit :=
          match dto.local_file_path with
          | some p => local_path_exists w1 p
          | none => false
        let next := prefetch_loop w1 rest
        ((next.1.1 + 1, (if hit then next.1.2.1 + 1 else next.1.2.1), next.1.2.2),
         next.2.1, n1 + next.2.2)
      | (.error _, w1, n1) =>
        let next := prefetch_loop w1 rest
        ((next.1.1 + 1, next.1.2.1, next.1.2.2), next.2.1, n1 + next.2.2)

/-- One prefetch batch (`prefetch_once_internal`): hydrate seeded assets,
gather candidates, run the per-id loop, persist the result snapshot. -/
def prefetch_once_internal (w : World) (batch_size : Nat) (current_idle_seconds : Nat) :
    PictogramPrefetchRunResultDto × World × Nat :=
  let seeded := ensure_seeded_activity_assets w
  let ids := load_prefetch_candidate_ids seeded.2.1 batch_size
  let run := prefetch_loop seeded.2.1 ids
  let result : PictogramPrefetchRunResultDto :=
    { processed_ids := run.1.1
      downloaded := run.1.2.1
      already_cached := run.1.2.2
      hydrated_seeded := seeded.1
      idle_seconds := current_idle_seconds }
  (result, { run.2.1 with lastRunResult := some result }, seeded.2.2 + run.2.2)

/-- Rust's `as u64` on a (sign-extended) integer value. -/
def intAsU64 (i : Int) : Nat := (i % (2 ^ 64 : Int)).toNat

/-- One tick of the idle prefetch worker loop (`spawn_idle_prefetch_worker`):
a failed settings load skips the tick, a disabled flag or insufficient idle
time performs nothing, otherwise exactly one batch runs.  The third component
counts origin network calls made by the tick. -/
def prefetch_tick (w : World) (settings : Option PrefetchSettingsRow) (idleSecs : Nat) :
    Option PictogramPrefetchRunResultDto × World × Nat :=
  match settings with
  | none => (none, w, 0)
  | some s =>
    if !s.enabled then (none, w, 0)
    else if idleSecs < (max s.idle_minutes 1).toNat * 60 then (none, w, 0)
    else
      let run := prefetch_once_internal w (intAsU64 s.batch_size) idleSecs
      (some run.1, run.2.1, run.2.2)

def savedKeyMatches (user : Str) (arasaac_id : Int) (r : SavedPictogramRow) : Bool :=
  r.user_id == user && r.arasaac_id == arasaac_id

/-- Bookmark upsert (`save_pictogram`): `INSERT .. ON DUPLICATE KEY UPDATE
label = COALESCE(VALUES(label), label)` on the (user, id) unique key — a new
row starts with `used_count` 0, a re-save overwrites the label only when one
is provided and never touches the counter. -/
def save_pictogram (rows : List SavedPictogramRow) (user : Str) (arasaac_id : Int)
    (label : Option Str) : List SavedPictogramRow :=
  if rows.any (savedKeyMatches user arasaac_id) then
    rows.map (fun r =>
      if savedKeyMatches user arasaac_id r then
        { r with label := match label with | some l => some l | none => r.label }
      else r)
  else rows ++ [{ user_id := user, arasaac_id := arasaac_id, label := label, used_count := 0 }]

/-- First bookmark row for a (user, id) pair. -/
def findSaved (rows : List SavedPictogramRow) (user : Str) (arasaac_id : Int) :
    Option SavedPictogramRow :=
  rows.find? (savedKeyMatches user arasaac_id)

/-- Restatement of the amended slugification claim in the spec's own shape:
per character, ASCII alphanumerics are kept lower-cased, `-` and `_` are kept,
whitespace becomes `-`, everything else is removed; then `-` is trimmed from
both ends and an empty result becomes `"uncategorized"`. -/
def sanitizeSegmentSpec (input : Str) : Str :=
  let mapped := input.flatMap (fun c =>
    if isAsciiAlnum c then [asciiLowerChar c]
    else if c == '-' || c == '_' then [c]
    else if isRustWhitespace c then ['-']
    else [])
  let trimmed := ((mapped.dropWhile (· == '-')).reverse.dropWhile (· == '-')).reverse
  if trimmed.isEmpty then "uncategorized".toList else trimmed

/-- Characters a slug may consist of: lowercase ASCII alphanumerics, `-`, `_`. -/
def allowedSlugChar (c : Char) : Bool :=
  (0x30 ≤ c.toNat && c.toNat ≤ 0x39) || (0x61 ≤ c.toNat && c.toNat ≤ 0x7A) ||
  c == '-' || c == '_'

/-- A path component that cannot escape its directory: non-empty, holds no
separator, and is neither `.` nor `..`. -/
def goodComponent (c : Str) : Prop :=
  c ≠ [] ∧ '/' ∉ c ∧ c ≠ ['.'] ∧ c ≠ ['.', '.']

/-- A disk path of the shape `root/<c₁>/<c₂>` with both components unable to
escape: the path stays strictly under `root`. -/
def strictlyUnderRoot (root p : Str) : Prop :=
  ∃ c₁ c₂, p = root ++ '/' :: c₁ ++ '/' :: c₂ ∧ goodComponent c₁ ∧ goodComponent c₂

/-- Uniqueness invariant of the bookmark table: no two rows share the
(user, pictogram id) key. -/
def savedKeyUnique (rows : List SavedPictogramRow) : Prop :=
  rows.Pairwise (fun a b => ¬(a.user_id = b.user_id ∧ a.arasaac_id = b.arasaac_id))

/-- A record holding only keywords, as in the spec's ranking example. -/
def kwRecord (kw : List Str) : PictogramDto :=
  { arasaac_id := 0
    keywords := kw
    category := none
    categories := []
    tags := []
    language := "en".toList
    image_url := none
    local_file_path := none
    width := none
    height := none
    license := []
    description := none }

/-- Origin pictogram whose keyword entries arrive as zebra, apple, zebra. -/
def zebraPictogram : ArasaacPictogram :=
  { id := 1
    keywords := [{ keyword := some "zebra".toList, plural := none, meaning := none },
                 { keyword := some "apple".toList, plural := none, meaning := none },
                 { keyword := some "zebra".toList, plural := none, meaning := none }]
    categories := []
    tags := []
    desc := none }

def applePieRec : PictogramDto := kwRecord ["apple pie".toList]

def appleRec : PictogramDto := kwRecord ["apple".toList]

def greenTreeRec : PictogramDto := kwRecord ["green apple tree".toList]

/-- A stored row whose asset file exists, for concrete cache-hit runs. -/
def row3 : PictogramRow :=
  { arasaac_id := 5
    keywords_text := "ball".toList
    category := some "toys".toList
    categories_text := some "toys".toList
    tags_text := none
    language := "en".toList
    image_url := some "https://static.arasaac.org/pictograms/5/5_500.png".toList
    local_file_path := some "/assets/pictograms/toys/5.png".toList
    width := none
    height := none
    license := DEFAULT_LICENSE
    description := none
    updated_at := 3 }

/-- A world holding `row3` with its asset on disk and a dead origin, so any
origin call would be observable. -/
def cw3 : World :=
  { ensurePictogramsOk := true
    pictRows := [row3]
    savedPictograms := []
    activityLib := []
    fsFiles := ["backend/assets_seed/pictograms/toys/5.png".toList]
    time := 7
    originById := fun _ _ => .transportError
    originBest := .transportError
    originSearch := .transportError
    upsertExecOk := fun _ => false
    svgAsset := fun _ => .transportError
    pngAsset := fun _ => .transportError
    ftMatch := fun _ _ => false
    lastRunResult := none }

/-- A world with a dead origin and empty tables, for building fixtures. -/
def deadWorld : World :=
  { ensurePictogramsOk := true
    pictRows := []
    savedPictograms := []
    activityLib := []
    fsFiles := []
    time := 0
    originById := fun _ _ => .transportError
    originBest := .transportError
    originSearch := .transportError
    upsertExecOk := fun _ => true
    svgAsset := fun _ => .transportError
    pngAsset := fun _ => .transportError
    ftMatch := fun _ _ => false
    lastRunResult := none }

/-- Origin pictogram used by the degraded-read runs. -/
def ballPictogram : ArasaacPictogram :=
  { id := 6
    keywords := [{ keyword := some "ball".toList, plural := none, meaning := none }]
    categories := ["toys".toList]
    tags := []
    desc := none }

/-- By-id origin works, asset downloads fail, so the write-back fails. -/
def cw4a : World := { deadWorld with originById := fun _ _ => .response 200 (some [ballPictogram]) }

/-- Same origin, but the local store is unavailable. -/
def cw4b : World := { cw4a with ensurePictogramsOk := false }

/-- Search origin works, local store unavailable. -/
def cw4c : World :=
  { deadWorld with ensurePictogramsOk := false, originBest := .response 200 (some [ballPictogram]) }

/-- Search origin works, local store available but empty; downloads fail, so
every write-back fails. -/
def cw4d : World := { deadWorld with originBest := .response 200 (some [ballPictogram]) }

/-- A stored row whose text columns do not contain "a bcd" as a substring. -/
def row5 : PictogramRow :=
  { arasaac_id := 9
    keywords_text := "xyz".toList
    category := none
    categories_text := none
    tags_text := none
    language := "en".toList
    image_url := none
    local_file_path := none
    width := none
    height := none
    license := DEFAULT_LICENSE
    description := none
    updated_at := 1 }

/-- A world whose FULLTEXT engine matches `row5` exactly for the boolean
query "bcd*". -/
def cw5 : World :=
  { deadWorld with
      pictRows := [row5]
      ftMatch := fun q _ => q == "bcd*".toList }

def prefetchOn : PrefetchSettingsRow := { enabled := true, idle_minutes := 20, batch_size := 10 }

def prefetchOff : PrefetchSettingsRow := { enabled := false, idle_minutes := 20, batch_size := 10 }

/-- C1 counterexample: an origin response with HTTP status 429 makes
`fetch_remote_vec` raise `BadRequest` with the rate-limit message — not the
distinct `RateLimited` kind the claim names. -/
theorem c1_rate_limited_counterexample :
    fetch_remote_vec (.response 429 (some [])) = .error (.BadRequest rateLimitMsg) ∧
    AppError.BadRequest rateLimitMsg ≠ AppError.RateLimited := by
  exact ⟨rfl, fun h => AppError.noConfusion h⟩

/-- C1 (amended): for every origin response with HTTP status 429, the shared
remote-fetch helper used by search and resolveById raises `BadRequest`
carrying the rate-limit retry message — a kind distinct from `Internal` (and
from `NotFound`), though not the separate `RateLimited` kind. -/
theorem c1_rate_limited_amended (body : Option (List ArasaacPictogram)) :
    fetch_remote_vec (.response 429 body) = .error (.BadRequest rateLimitMsg) ∧
    (∀ m, AppError.BadRequest rateLimitMsg ≠ AppError.Internal m) ∧
    AppError.BadRequest rateLimitMsg ≠ AppError.NotFound := by
  refine ⟨rfl, fun m h => AppError.noConfusion h, fun h => AppError.noConfusion h⟩

/-- C1 witness: the amended statement evaluated at a concrete parsed body. -/
theorem c1_rate_limited_witness :
    fetch_remote_vec (.response 429 (some [zebraPictogram])) =
      .error (.BadRequest rateLimitMsg) :=
  (c1_rate_limited_amended (some [zebraPictogram])).1

/-- C2 counterexample: with the records {"apple pie"}, {"apple"},
{"green apple tree"} and query "apple", ranking keeps {"apple pie"} first
(store order, both score 700), not {"apple"} first with score 1000 as the
claim states: the scored haystack carries the `format!` separator spaces, so
{"apple"} scores as a starts-with match. -/
theorem c2_fuzzy_ranking_counterexample :
    sort_by_fuzzy_score [applePieRec, appleRec, greenTreeRec] "apple".toList
      = [applePieRec, appleRec, greenTreeRec] ∧
    fuzzy_score "apple".toList (dtoHaystack appleRec) = 700 ∧
    fuzzy_score "apple".toList (dtoHaystack applePieRec) = 700 ∧
    fuzzy_score "apple".toList (dtoHaystack greenTreeRec) = 400 ∧
    applePieRec ≠ appleRec := by
  refine ⟨by decide, by decide, by decide, by decide, by decide⟩

/-- C2 (amended): the fuzzy score of a record is computed against the
space-separated joined keyword/category/tag texts and description (separator
spaces present even for empty fields): 1000 when that haystack equals the
query case-insensitively, 700 when it starts with the query, 400 when it
contains it, otherwise 80 per whitespace-split query token found; sorting is
descending by score and stable (a permutation sorted w.r.t. the descending
relation), and for the example records the scores are 700, 700, 400, so
ranking yields {"apple pie"} before {"apple"} before {"green apple tree"}. -/
theorem c2_fuzzy_ranking_amended :
    (∀ q h, lowerAscii h = lowerAscii q → fuzzy_score q h = 1000) ∧
    (∀ q h, lowerAscii h ≠ lowerAscii q →
        isPrefixList (lowerAscii q) (lowerAscii h) = true → fuzzy_score q h = 700) ∧
    (∀ q h, lowerAscii h ≠ lowerAscii q →
        isPrefixList (lowerAscii q) (lowerAscii h) = false →
        containsList (lowerAscii h) (lowerAscii q) = true → fuzzy_score q h = 400) ∧
    (∀ q h, lowerAscii h ≠ lowerAscii q →
        isPrefixList (lowerAscii q) (lowerAscii h) = false →
        containsList (lowerAscii h) (lowerAscii q) = false →
        fuzzy_score q h =
          ((splitWs (lowerAscii q)).filter
            (fun t => !t.isEmpty && containsList (lowerAscii h) t)).length * 80) ∧
    (∀ items q, (sort_by_fuzzy_score items q).Perm items) ∧
    (∀ items q, (sort_by_fuzzy_score items q).Sorted
        (fun a b => fuzzy_score q (dtoHaystack b) ≤ fuzzy_score q (dtoHaystack a))) ∧
    sort_by_fuzzy_score [applePieRec, appleRec, greenTreeRec] "apple".toList
      = [applePieRec, appleRec, greenTreeRec] := by
  refine ⟨?_, ?_, ?_, ?_, ?_, ?_, by decide⟩
  · intro q h heq
    simp [fuzzy_score, heq]
  · intro q h hne hpre
    simp [fuzzy_score, beq_iff_eq, hne, hpre]
  · intro q h hne hpre hcon
    simp [fuzzy_score, beq_iff_eq, hne, hpre, hcon]
  · intro q h hne hpre hcon
    simp [fuzzy_score, beq_iff_eq, hne, hpre, hcon]
  · intro items q
    exact List.perm_insertionSort _ _
  · intro items q
    haveI : IsTotal PictogramDto
        (fun a b => fuzzy_score q (dtoHaystack b) ≤ fuzzy_score q (dtoHaystack a)) :=
      ⟨fun a b => Nat.le_total _ _⟩
    haveI : IsTrans PictogramDto
        (fun a b => fuzzy_score q (dtoHaystack b) ≤ fuzzy_score q (dtoHaystack a)) :=
      ⟨fun _ _ _ hab hbc => le_trans hbc hab⟩
    exact List.sorted_insertionSort _ _

/-- C2 witness: the scoring equations evaluated at concrete inputs through
the amended theorem. -/
theorem c2_fuzzy_ranking_witness :
    fuzzy_score "Ball".toList "ball".toList = 1000 ∧
    fuzzy_score "ball".toList "ball game".toList = 700 ∧
    fuzzy_score "ball".toList "red ball".toList = 400 ∧
    fuzzy_score "red ball".toList "ball pit".toList = 1 * 80 := by
  refine ⟨c2_fuzzy_ranking_amended.1 _ _ (by decide), ?_, ?_, ?_⟩
  · exact c2_fuzzy_ranking_amended.2.1 _ _ (by decide) (by decide)
  · exact c2_fuzzy_ranking_amended.2.2.1 _ _ (by decide) (by decide) (by decide)
  · have h := c2_fuzzy_ranking_amended.2.2.2.1 "red ball".toList "ball pit".toList
      (by decide) (by decide) (by decide)
    rw [h]
    decide

/-- C6 counterexample: the slash in "a/b" is removed, not replaced by `-`:
slugification yields "ab", not the "a-b" the claim's rule would produce. -/
theorem c6_sanitize_counterexample :
    sanitize_segment "a/b".toList = "ab".toList ∧
    "ab".toList ≠ "a-b".toList := by
  exact ⟨by decide, by decide⟩

theorem sanitize_charStep (c : Char) (acc : Str) :
    (if isAsciiAlnum c || c == '-' || c == '_' then asciiLowerChar c :: acc
     else if isRustWhitespace c then '-' :: acc
     else acc) =
    (if isAsciiAlnum c then [asciiLowerChar c]
     else if c == '-' || c == '_' then [c]
     else if isRustWhitespace c then ['-']
     else []) ++ acc := by
  by_cases h1 : isAsciiAlnum c = true
  · simp [h1]
  · simp only [Bool.not_eq_true] at h1
    by_cases h2 : (c == '-' || c == '_') = true
    · have hc : c = '-' ∨ c = '_' := by
        rcases Bool.or_eq_true_iff.mp h2 with h | h
        · exact Or.inl (beq_iff_eq.mp h)
        · exact Or.inr (beq_iff_eq.mp h)
      have hlow : asciiLowerChar c = c := by
        rcases hc with rfl | rfl <;> decide
      simp [h1, h2, hlow]
    · simp only [Bool.not_eq_true] at h2
      by_cases h3 : isRustWhitespace c = true
      · simp [h1, h2, h3]
      · simp only [Bool.not_eq_true] at h3
        simp [h1, h2, h3]

/-- C6 (amended): slugification keeps ASCII alphanumerics lower-cased along
with `-` and `_`, turns whitespace into `-`, removes (rather than dashes)
every other character, trims `-` from both ends, and yields "uncategorized"
when the result is empty — stated as equality with the per-character spec
shape `sanitizeSegmentSpec`. -/
theorem c6_sanitize_amended (input : Str) :
    sanitize_segment input = sanitizeSegmentSpec input := by
  have core : ∀ s : Str,
      s.foldr (fun c acc =>
        if isAsciiAlnum c || c == '-' || c == '_' then asciiLowerChar c :: acc
        else if isRustWhitespace c then '-' :: acc
        else acc) [] =
      s.flatMap (fun c =>
        if isAsciiAlnum c then [asciiLowerChar c]
        else if c == '-' || c == '_' then [c]
        else if isRustWhitespace c then ['-']
        else []) := by
    intro s
    induction s with
    | nil => rfl
    | cons c cs ih =>
      rw [List.foldr_cons, sanitize_charStep, ih, List.flatMap_cons]
  simp only [sanitize_segment, sanitizeSegmentSpec, core]

theorem lexLe_cases {a b : Char} {as bs : Str} (h : lexLe (a :: as) (b :: bs) = true) :
    a.toNat < b.toNat ∨ (a.toNat = b.toNat ∧ lexLe as bs = true) := by
  by_cases h1 : a.toNat < b.toNat
  · exact Or.inl h1
  · right
    rw [lexLe, if_neg h1] at h
    by_cases h2 : a.toNat = b.toNat
    · rw [if_pos h2] at h; exact ⟨h2, h⟩
    · rw [if_neg h2] at h; cases h

theorem lexLe_total : ∀ a b : Str, lexLe a b = true ∨ lexLe b a = true
  | [], _ => Or.inl rfl
  | _ :: _, [] => Or.inr rfl
  | a :: as, b :: bs => by
    rcases Nat.lt_trichotomy a.toNat b.toNat with h | h | h
    · left; rw [lexLe, if_pos h]
    · rcases lexLe_total as bs with ih | ih
      · left; rw [lexLe, if_neg (by omega), if_pos h]; exact ih
      · right; rw [lexLe, if_neg (by omega), if_pos h.symm]; exact ih
    · right; rw [lexLe, if_pos h]

theorem lexLe_trans : ∀ a b c : Str, lexLe a b = true → lexLe b c = true → lexLe a c = true
  | [], _, _, _, _ => rfl
  | _ :: _, [], _, hab, _ => by cases hab
  | _ :: _, _ :: _, [], _, hbc => by cases hbc
  | a :: as, b :: bs, c :: cs, hab, hbc => by
    rcases lexLe_cases hab with h1 | ⟨h1, h1'⟩ <;> rcases lexLe_cases hbc with h2 | ⟨h2, h2'⟩
    · rw [lexLe, if_pos (by omega)]
    · rw [lexLe, if_pos (by omega)]
    · rw [lexLe, if_pos (by omega)]
    · rw [lexLe, if_neg (by omega), if_pos (by omega)]
      exact lexLe_trans as bs cs h1' h2'

theorem lexLe_antisymm : ∀ a b : Str, lexLe a b = true → lexLe b a = true → a = b
  | [], [], _, _ => rfl
  | [], _ :: _, _, hba => by cases hba
  | _ :: _, [], hab, _ => by cases hab
  | a :: as, b :: bs, hab, hba => by
    rcases lexLe_cases hab with h1 | ⟨h1, h1'⟩ <;> rcases lexLe_cases hba with h2 | ⟨h2, h2'⟩ <;>
      try omega
    have hhead : a = b := Char.eq_of_val_eq (UInt32.ext h1)
    rw [hhead, lexLe_antisymm as bs h1' h2']

theorem dedupAdj_mem : ∀ (l : List Str) (x : Str), x ∈ dedupAdj l ↔ x ∈ l
  | [], _ => Iff.rfl
  | [_], _ => Iff.rfl
  | y :: z :: rest, x => by
    by_cases h : (y == z) = true
    · have hyz : y = z := beq_iff_eq.mp h
      rw [dedupAdj, if_pos h, dedupAdj_mem (z :: rest) x, hyz]
      simp [List.mem_cons]
    · rw [dedupAdj, if_neg h]
      simp only [List.mem_cons, dedupAdj_mem (z :: rest) x]

theorem dedupAdj_sorted : ∀ l : List Str, l.Sorted (fun a b => lexLe a b = true) →
    (dedupAdj l).Sorted (fun a b => lexLe a b = true)
  | [], _ => List.sorted_nil
  | [x], _ => List.sorted_singleton x
  | y :: z :: rest, hs => by
    have hs' : (z :: rest).Sorted (fun a b => lexLe a b = true) :=
      (List.sorted_cons.mp hs).2
    by_cases h : (y == z) = true
    · rw [dedupAdj, if_pos h]
      exact dedupAdj_sorted (z :: rest) hs'
    · rw [dedupAdj, if_neg h]
      refine List.sorted_cons.mpr ⟨?_, dedupAdj_sorted (z :: rest) hs'⟩
      intro b hb
      exact (List.sorted_cons.mp hs).1 b ((dedupAdj_mem (z :: rest) b).mp hb)

theorem dedupAdj_nodup : ∀ l : List Str, l.Sorted (fun a b => lexLe a b = true) →
    (dedupAdj l).Nodup
  | [], _ => List.nodup_nil
  | [x], _ => List.nodup_singleton x
  | y :: z :: rest, hs => by
    have hs' : (z :: rest).Sorted (fun a b => lexLe a b = true) :=
      (List.sorted_cons.mp hs).2
    by_cases h : (y == z) = true
    · rw [dedupAdj, if_pos h]
      exact dedupAdj_nodup (z :: rest) hs'
    · rw [dedupAdj, if_neg h]
      refine List.nodup_cons.mpr ⟨?_, dedupAdj_nodup (z :: rest) hs'⟩
      intro hymem
      have hyzr : y ∈ z :: rest := (dedupAdj_mem (z :: rest) y).mp hymem
      have hney : y ≠ z := fun he => h (beq_iff_eq.mpr he)
      rcases List.mem_cons.mp hyzr with he | hyr
      · exact hney he
      · have h1 : lexLe y z = true := (List.sorted_cons.mp hs).1 z (List.mem_cons_self z rest)
        have h2 : lexLe z y = true := (List.sorted_cons.mp hs').1 y hyr
        exact hney (lexLe_antisymm y z h1 h2)

/-- C7 counterexample: keyword entries arriving as zebra, apple, zebra are
returned as ["apple", "zebra"]: the origin's token order is not preserved and
the duplicate is dropped. -/
theorem c7_keyword_order_counterexample :
    extract_keyword_tokens zebraPictogram = ["apple".toList, "zebra".toList] ∧
    collectedKeywordTokens zebraPictogram =
      ["zebra".toList, "apple".toList, "zebra".toList] ∧
    extract_keyword_tokens zebraPictogram ≠ collectedKeywordTokens zebraPictogram := by
  exact ⟨by decide, by decide, by decide⟩

/-- C7 (amended): the keyword collection of a record built from an origin
pictogram holds exactly the trimmed non-empty keyword/plural/meaning tokens,
but sorted lexicographically and with duplicates removed — order is not
preserved and uniqueness is enforced; the category and tag collections are
passed through unchanged (order preserved, duplicates kept). -/
theorem c7_keyword_tokens_amended :
    (∀ p : ArasaacPictogram,
        (extract_keyword_tokens p).Sorted (fun a b => lexLe a b = true) ∧
        (extract_keyword_tokens p).Nodup ∧
        (∀ x, x ∈ extract_keyword_tokens p ↔ x ∈ collectedKeywordTokens p)) ∧
    (∀ language p, (remote_to_dto language p).keywords = extract_keyword_tokens p ∧
        (remote_to_dto language p).categories = p.categories ∧
        (remote_to_dto language p).tags = p.tags) := by
  constructor
  · intro p
    haveI : IsTotal Str (fun a b => lexLe a b = true) := ⟨lexLe_total⟩
    haveI : IsTrans Str (fun a b => lexLe a b = true) := ⟨lexLe_trans⟩
    have hsortd : (List.insertionSort (fun a b => lexLe a b = true)
        (collectedKeywordTokens p)).Sorted (fun a b => lexLe a b = true) :=
      List.sorted_insertionSort _ _
    refine ⟨dedupAdj_sorted _ hsortd, dedupAdj_nodup _ hsortd, ?_⟩
    intro x
    rw [extract_keyword_tokens, dedupAdj_mem]
    exact (List.perm_insertionSort _ _).mem_iff
  · intro language p
    exact ⟨rfl, rfl, rfl⟩

/-- C3: when the store is available and holds a record for a positive id whose
asset path resolves to an existing file, resolveById returns that record with
zero origin calls and an unchanged world (hence no store write), and a second
call on the resulting world performs zero further calls and returns the
identical record. -/
theorem c3_resolve_local_hit (w : World) (language : Str) (arasaac_id : Int)
    (dto : PictogramDto) (path : Str)
    (hid : 0 < arasaac_id)
    (hready : w.ensurePictogramsOk = true)
    (hrow : query_local_by_id w arasaac_id = some dto)
    (hpath : dto.local_file_path = some path)
    (hex : local_path_exists w path = true) :
    get_or_fetch_by_id w language arasaac_id = (.ok dto, w, 0) ∧
    get_or_fetch_by_id (get_or_fetch_by_id w language arasaac_id).2.1 language arasaac_id
      = (.ok dto, w, 0) := by
  have hhit : localVerifiedHit w arasaac_id = some dto := by
    simp [localVerifiedHit, hready, hrow, hpath, hex]
  have h1 : get_or_fetch_by_id w language arasaac_id = (.ok dto, w, 0) := by
    rw [get_or_fetch_by_id, if_neg (by omega), hhit]
  refine ⟨h1, ?_⟩
  rw [h1]
  exact h1

/-- C3 witness: the cache-hit run evaluated on the concrete world `cw3`. -/
theorem c3_resolve_local_hit_witness :
    get_or_fetch_by_id cw3 "en".toList 5 = (.ok (row_to_dto row3), cw3, 0) ∧
    get_or_fetch_by_id (get_or_fetch_by_id cw3 "en".toList 5).2.1 "en".toList 5
      = (.ok (row_to_dto row3), cw3, 0) :=
  c3_resolve_local_hit cw3 "en".toList 5 (row_to_dto row3)
    "/assets/pictograms/toys/5.png".toList
    (by decide) (by decide) (by decide) (by decide) (by decide)

/-- C4: a successful origin fetch is never turned into a failure by the local
store: (a) when the write-back fails, resolveById returns the direct
origin-mapped record as a degraded result; (b) when the store is unavailable,
resolveById returns the direct origin mapping; (c) when the store is
unavailable, search returns the origin hits mapped directly and ranked, with
no raised error; (d) when the store is available and the origin search
succeeds, search never raises, whatever the write-back outcomes. -/
theorem c4_degraded_reads :
    (∀ w language arasaac_id list remote e w' n,
        0 < arasaac_id → w.ensurePictogramsOk = true →
        localVerifiedHit w arasaac_id = none →
        fetch_remote_vec (w.originById (normalize_language language) arasaac_id) = .ok list →
        list.getLast? = some remote →
        upsert_remote_pictogram w (normalize_language language) remote = (.error e, w', n) →
        get_or_fetch_by_id w language arasaac_id =
          (.ok (remote_to_dto (normalize_language language) remote), w', 1 + n)) ∧
    (∀ w language arasaac_id list remote,
        0 < arasaac_id → w.ensurePictogramsOk = false →
        fetch_remote_vec (w.originById (normalize_language language) arasaac_id) = .ok list →
        list.getLast? = some remote →
        get_or_fetch_by_id w language arasaac_id =
          (.ok (remote_to_dto (normalize_language language) remote), w, 1)) ∧
    (∀ w language query remote n,
        w.ensurePictogramsOk = false → trimList query ≠ [] →
        fetch_remote_search w = (.ok remote, n) →
        search_local_first w language query =
          (.ok (sort_by_fuzzy_score (remote.map (remote_to_dto (normalize_language language)))
            (trimList query)), w, n)) ∧
    (∀ w language query remote n,
        w.ensurePictogramsOk = true → trimList query ≠ [] →
        fetch_remote_search w = (.ok remote, n) →
        ∀ err, (search_local_first w language query).1 ≠ .error err) := by
  refine ⟨?_, ?_, ?_, ?_⟩
  · intro w language arasaac_id list remote e w' n hid hready hmiss hfetch hlast hup
    have hid' : ¬ arasaac_id ≤ 0 := by omega
    simp [get_or_fetch_by_id, hid', hmiss, hfetch, hlast, hready, hup]
  · intro w language arasaac_id list remote hid hready hfetch hlast
    have hid' : ¬ arasaac_id ≤ 0 := by omega
    simp [get_or_fetch_by_id, hid', localVerifiedHit, hready, hfetch, hlast]
  · intro w language query remote n hready hq hfetch
    have hq' : (trimList query).isEmpty = false := by
      cases hqe : (trimList query).isEmpty
      · rfl
      · exact absurd (List.isEmpty_iff.mp hqe) hq
    by_cases hre : remote.isEmpty = true
    · have : remote = [] := List.isEmpty_iff.mp hre
      subst this
      simp [search_local_first, hq', hready, hfetch, sort_by_fuzzy_score]
    · simp only [Bool.not_eq_true] at hre
      simp [search_local_first, hq', hready, hfetch, hre]
  · intro w language query remote n hready hq hfetch err
    have hq' : (trimList query).isEmpty = false := by
      cases hqe : (trimList query).isEmpty
      · rfl
      · exact absurd (List.isEmpty_iff.mp hqe) hq
    by_cases hloc : (query_local w (normalize_language language) (trimList query)).isEmpty = true
    · by_cases hre : remote.isEmpty = true
      · simp [search_local_first, hq', hready, hloc, hfetch, hre]
      · simp only [Bool.not_eq_true] at hre
        simp [search_local_first, hq', hready, hloc, hfetch, hre]
    · simp only [Bool.not_eq_true] at hloc
      simp [search_local_first, hq', hready, hloc]

/-- C4 witness: the four degraded-read statements evaluated on concrete
worlds whose asset downloads (and hence write-backs) fail. -/
theorem c4_degraded_reads_witness :
    get_or_fetch_by_id cw4a "en".toList 6 =
      (.ok (remote_to_dto "en".toList ballPictogram), cw4a, 1 + 2) ∧
    get_or_fetch_by_id cw4b "en".toList 6 =
      (.ok (remote_to_dto "en".toList ballPictogram), cw4b, 1) ∧
    search_local_first cw4c "en".toList "ball".toList =
      (.ok (sort_by_fuzzy_score ([ballPictogram].map (remote_to_dto "en".toList))
        "ball".toList), cw4c, 1) ∧
    (search_local_first cw4d "en".toList "ball".toList).1 ≠ .error .NotFound := by
  refine ⟨?_, ?_, ?_, ?_⟩
  · exact c4_degraded_reads.1 cw4a "en".toList 6 [ballPictogram] ballPictogram
      (.Internal "Failed downloading ARASAAC PNG".toList) cw4a 2
      (by decide) rfl (by decide) rfl rfl rfl
  · exact c4_degraded_reads.2.1 cw4b "en".toList 6 [ballPictogram] ballPictogram
      (by decide) rfl rfl rfl
  · exact c4_degraded_reads.2.2.1 cw4c "en".toList "ball".toList [ballPictogram] 1
      rfl (by decide) rfl
  · exact c4_degraded_reads.2.2.2 cw4d "en".toList "ball".toList [ballPictogram] 1
      rfl (by decide) rfl (.NotFound)

theorem joinWith_star_isEmpty (toks : List Str) :
    (joinWith [' '] (toks.map (fun t => t ++ ['*']))).isEmpty = toks.isEmpty := by
  cases toks with
  | nil => rfl
  | cons t ts =>
    cases ts with
    | nil => simp [joinWith, List.isEmpty_iff]
    | cons u us => simp [joinWith, List.isEmpty_iff]

theorem to_fulltext_boolean_isEmpty (query : Str) :
    (to_fulltext_boolean query).isEmpty =
      ((splitWs (query.map (fun c => if isFtSpecial c then ' ' else c))).filter
        (fun t => 2 ≤ utf8Len t)).isEmpty := by
  rw [to_fulltext_boolean, joinWith_star_isEmpty]

/-- C5 counterexample: the query "a bcd" holds a one-character token, yet the
structured FULLTEXT path is taken (the short token is merely dropped from the
boolean query): on a world whose FULLTEXT engine matches `row5` for "bcd*",
`query_local` returns the structured hit while the substring scan finds
nothing. -/
theorem c5_short_token_counterexample :
    usesFulltextSearch "a bcd".toList = true ∧
    (splitWs "a bcd".toList).any (fun t => utf8Len t < 2) = true ∧
    to_fulltext_boolean "a bcd".toList = "bcd*".toList ∧
    query_local cw5 "en".toList "a bcd".toList = [row_to_dto row5] ∧
    query_local_like cw5 "en".toList "a bcd".toList = [] := by
  exact ⟨by decide, by decide, by decide, by decide, by decide⟩

/-- C5 (amended): the structured boolean-prefix full-text path is used iff
the query is at least 4 bytes long and at least one whitespace token (after
boolean-mode special characters become spaces) is at least 2 bytes — shorter
tokens are dropped from the boolean query rather than disabling it; every
other query uses the case-insensitive substring scan, and a structured search
that returns zero rows falls back to the substring scan automatically. -/
theorem c5_query_local_strategy_amended :
    (∀ query, usesFulltextSearch query = true ↔
        (4 ≤ utf8Len query ∧
          ((splitWs (query.map (fun c => if isFtSpecial c then ' ' else c))).filter
            (fun t => 2 ≤ utf8Len t)) ≠ [])) ∧
    (∀ w language query, usesFulltextSearch query = false →
        query_local w language query = query_local_like w language query) ∧
    (∀ w language query, usesFulltextSearch query = true →
        (w.pictRows.filter (fun r => r.language == language &&
          w.ftMatch (to_fulltext_boolean query) r)).take 60 = [] →
        query_local w language query = query_local_like w language query) ∧
    (∀ w language query, usesFulltextSearch query = true →
        (w.pictRows.filter (fun r => r.language == language &&
          w.ftMatch (to_fulltext_boolean query) r)).take 60 ≠ [] →
        query_local w language query =
          ((w.pictRows.filter (fun r => r.language == language &&
            w.ftMatch (to_fulltext_boolean query) r)).take 60).map row_to_dto) := by
  refine ⟨?_, ?_, ?_, ?_⟩
  · intro query
    rw [usesFulltextSearch, to_fulltext_boolean_isEmpty]
    simp [List.isEmpty_iff, Nat.not_lt]
  · intro w language query h
    simp [query_local, h]
  · intro w language query h hrows
    simp [query_local, h, hrows]
  · intro w language query h hrows
    have hne : ((w.pictRows.filter (fun r => r.language == language &&
        w.ftMatch (to_fulltext_boolean query) r)).take 60).isEmpty = false := by
      cases he : ((w.pictRows.filter (fun r => r.language == language &&
          w.ftMatch (to_fulltext_boolean query) r)).take 60).isEmpty
      · rfl
      · exact absurd (List.isEmpty_iff.mp he) hrows
    simp [query_local, h, hne]

/-- C5 witness: the four strategy statements evaluated at concrete queries
and worlds through the amended theorem. -/
theorem c5_query_local_strategy_witness :
    usesFulltextSearch "ball game".toList = true ∧
    query_local deadWorld "en".toList "abc".toList =
      query_local_like deadWorld "en".toList "abc".toList ∧
    query_local cw5 "en".toList "wxyz".toList =
      query_local_like cw5 "en".toList "wxyz".toList ∧
    query_local cw5 "en".toList "a bcd".toList =
      ((cw5.pictRows.filter (fun r => r.language == "en".toList &&
        cw5.ftMatch (to_fulltext_boolean "a bcd".toList) r)).take 60).map row_to_dto := by
  refine ⟨?_, ?_, ?_, ?_⟩
  · exact (c5_query_local_strategy_amended.1 "ball game".toList).mpr ⟨by decide, by decide⟩
  · exact c5_query_local_strategy_amended.2.1 deadWorld "en".toList "abc".toList (by decide)
  · exact c5_query_local_strategy_amended.2.2.1 cw5 "en".toList "wxyz".toList
      (by decide) (by decide)
  · exact c5_query_local_strategy_amended.2.2.2 cw5 "en".toList "a bcd".toList
      (by decide) (by decide)

theorem prefetch_loop_processed : ∀ (w : World) (ids : List Int),
    (prefetch_loop w ids).1.1 = ids.length
  | _, [] => rfl
  | w, id :: rest => by
    rw [prefetch_loop]
    by_cases h : is_arasaac_id_cached_locally w id = true
    · rw [if_pos h]
      simp [prefetch_loop_processed _ rest]
    · rw [if_neg h]
      rcases hgo : get_or_fetch_by_id w "en".toList id with ⟨res, w1, n1⟩
      cases res with
      | ok dto => simp [hgo, prefetch_loop_processed _ rest]
      | error e => simp [hgo, prefetch_loop_processed _ rest]

theorem load_prefetch_candidate_ids_props (w : World) (bs : Nat) :
    (load_prefetch_candidate_ids w bs).Sorted (fun a b : Int => a ≤ b) ∧
    (load_prefetch_candidate_ids w bs).Nodup ∧
    (load_prefetch_candidate_ids w bs).length ≤ clampNat bs 1 2000 ∧
    (∀ i, i ∈ load_prefetch_candidate_ids w bs →
      i ∈ (w.activityLib.filterMap (fun r => r.arasaac_id)) ++
          (w.savedPictograms.map (fun r => r.arasaac_id)) ++
          (w.pictRows.map (fun r => r.arasaac_id))) := by
  haveI : IsTotal Int (fun a b : Int => a ≤ b) := ⟨Int.le_total⟩
  haveI : IsTrans Int (fun a b : Int => a ≤ b) := ⟨fun a b c hab hbc => le_trans hab hbc⟩
  have hsorted := List.sorted_insertionSort (fun a b : Int => a ≤ b)
    ((w.activityLib.filterMap (fun r => r.arasaac_id)) ++
     (w.savedPictograms.map (fun r => r.arasaac_id)) ++
     (w.pictRows.map (fun r => r.arasaac_id))).dedup
  have hnodup : (List.insertionSort (fun a b : Int => a ≤ b)
      ((w.activityLib.filterMap (fun r => r.arasaac_id)) ++
       (w.savedPictograms.map (fun r => r.arasaac_id)) ++
       (w.pictRows.map (fun r => r.arasaac_id))).dedup).Nodup :=
    ((List.perm_insertionSort _ _).nodup_iff).mpr (List.nodup_dedup _)
  refine ⟨?_, ?_, ?_, ?_⟩
  · exact List.Pairwise.sublist (List.take_sublist _ _) hsorted
  · exact List.Nodup.sublist (List.take_sublist _ _) hnodup
  · exact List.length_take_le _ _
  · intro i hi
    have h1 := List.mem_of_mem_take hi
    have h2 := ((List.perm_insertionSort _ _).mem_iff).mp h1
    exact List.mem_dedup.mp h2

/-- C8: on a tick, when prefetching is disabled or the elapsed idle time is
below idle-minutes × 60, nothing is executed and zero origin calls occur;
otherwise exactly one batch runs, its processed count equals the length of
the candidate list — every candidate, including failing ones, is counted and
the loop never aborts — and the candidate list is the deduplicated union of
card library, bookmark and local-store ids, sorted ascending and capped at
the batch size clamped to [1, 2000]. -/
theorem c8_prefetch_tick_gating :
    (∀ w s idleSecs, 1 ≤ s.idle_minutes →
        (s.enabled = false ∨ idleSecs < s.idle_minutes.toNat * 60) →
        prefetch_tick w (some s) idleSecs = (none, w, 0)) ∧
    (∀ w s idleSecs, 1 ≤ s.idle_minutes → s.enabled = true →
        s.idle_minutes.toNat * 60 ≤ idleSecs →
        ∃ res w' n, prefetch_tick w (some s) idleSecs = (some res, w', n) ∧
          res.processed_ids =
            (load_prefetch_candidate_ids (ensure_seeded_activity_assets w).2.1
              (intAsU64 s.batch_size)).length ∧
          res.idle_seconds = idleSecs) ∧
    (∀ w bs,
        (load_prefetch_candidate_ids w bs).Sorted (fun a b : Int => a ≤ b) ∧
        (load_prefetch_candidate_ids w bs).Nodup ∧
        (load_prefetch_candidate_ids w bs).length ≤ clampNat bs 1 2000 ∧
        (∀ i, i ∈ load_prefetch_candidate_ids w bs →
          i ∈ (w.activityLib.filterMap (fun r => r.arasaac_id)) ++
              (w.savedPictograms.map (fun r => r.arasaac_id)) ++
              (w.pictRows.map (fun r => r.arasaac_id)))) := by
  refine ⟨?_, ?_, ?_⟩
  · intro w s idleSecs him hcond
    have hmax : max s.idle_minutes 1 = s.idle_minutes := max_eq_left (by omega)
    rcases hcond with hdis | hidle
    · simp [prefetch_tick, hdis]
    · cases he : s.enabled
      · simp [prefetch_tick, he]
      · simp [prefetch_tick, he, hmax, hidle]
  · intro w s idleSecs him hen hidle
    have hmax : max s.idle_minutes 1 = s.idle_minutes := max_eq_left (by omega)
    refine ⟨(prefetch_once_internal w (intAsU64 s.batch_size) idleSecs).1,
            (prefetch_once_internal w (intAsU64 s.batch_size) idleSecs).2.1,
            (prefetch_once_internal w (intAsU64 s.batch_size) idleSecs).2.2, ?_, ?_, ?_⟩
    · simp [prefetch_tick, hen, hmax, Nat.not_lt.mpr hidle]
    · simp [prefetch_once_internal, prefetch_loop_processed]
    · simp [prefetch_once_internal]
  · intro w bs
    exact load_prefetch_candidate_ids_props w bs

/-- C8 witness: idle-minutes 20, batch 10 — a tick with prefetch disabled, a
tick 300 idle seconds in, a tick 1300 idle seconds in, and the candidate list
of the world `cw3`, all through the gating theorem. -/
theorem c8_prefetch_tick_gating_witness :
    prefetch_tick deadWorld (some prefetchOff) 100000 = (none, deadWorld, 0) ∧
    prefetch_tick deadWorld (some prefetchOn) 300 = (none, deadWorld, 0) ∧
    (∃ res w' n, prefetch_tick deadWorld (some prefetchOn) 1300 = (some res, w', n) ∧
        res.processed_ids =
          (load_prefetch_candidate_ids (ensure_seeded_activity_assets deadWorld).2.1
            (intAsU64 prefetchOn.batch_size)).length ∧
        res.idle_seconds = 1300) ∧
    ((load_prefetch_candidate_ids cw3 10).Sorted (fun a b : Int => a ≤ b) ∧
      (load_prefetch_candidate_ids cw3 10).Nodup ∧
      (load_prefetch_candidate_ids cw3 10).length ≤ clampNat 10 1 2000 ∧
      (∀ i, i ∈ load_prefetch_candidate_ids cw3 10 →
        i ∈ (cw3.activityLib.filterMap (fun r => r.arasaac_id)) ++
            (cw3.savedPictograms.map (fun r => r.arasaac_id)) ++
            (cw3.pictRows.map (fun r => r.arasaac_id)))) := by
  refine ⟨?_, ?_, ?_, ?_⟩
  · exact c8_prefetch_tick_gating.1 deadWorld prefetchOff 100000 (by decide)
      (Or.inl (by decide))
  · exact c8_prefetch_tick_gating.1 deadWorld prefetchOn 300 (by decide)
      (Or.inr (by decide))
  · exact c8_prefetch_tick_gating.2.1 deadWorld prefetchOn 1300 (by decide) (by decide)
      (by decide)
  · exact c8_prefetch_tick_gating.2.2 cw3 10

theorem savedKeyMatches_update (user : Str) (id : Int) (r : SavedPictogramRow)
    (l : Option Str) :
    savedKeyMatches user id { r with label := l } = savedKeyMatches user id r := rfl

theorem findSaved_save_present (rows : List SavedPictogramRow) (user : Str) (id : Int)
    (label : Option Str) (r : SavedPictogramRow)
    (h : findSaved rows user id = some r) :
    findSaved (save_pictogram rows user id label) user id =
      some { r with label := match label with | some l => some l | none => r.label } := by
  have hmem : r ∈ rows := List.mem_of_find?_eq_some h
  have hpred : savedKeyMatches user id r = true := List.find?_some h
  have hany : rows.any (savedKeyMatches user id) = true :=
    List.any_eq_true.mpr ⟨r, hmem, hpred⟩
  rw [save_pictogram, if_pos hany]
  clear hany hmem
  induction rows with
  | nil => cases h
  | cons x xs ih =>
    by_cases hx : savedKeyMatches user id x = true
    · rw [findSaved, List.find?_cons_of_pos _ hx] at h
      cases h
      rw [List.map_cons, if_pos hx, findSaved,
        List.find?_cons_of_pos _ (by rw [savedKeyMatches_update]; exact hx)]
    · rw [findSaved, List.find?_cons_of_neg _ (by simp [hx])] at h
      rw [List.map_cons, if_neg hx, findSaved,
        List.find?_cons_of_neg _ (by simp [hx])]
      exact ih h

theorem findSaved_save_absent (rows : List SavedPictogramRow) (user : Str) (id : Int)
    (label : Option Str) (h : findSaved rows user id = none) :
    findSaved (save_pictogram rows user id label) user id =
      some { user_id := user, arasaac_id := id, label := label, used_count := 0 } := by
  have hall : ∀ a ∈ rows, ¬ savedKeyMatches user id a = true := List.find?_eq_none.mp h
  have hany : rows.any (savedKeyMatches user id) = false := by
    cases hq : rows.any (savedKeyMatches user id)
    · rfl
    · rcases List.any_eq_true.mp hq with ⟨a, hmem, hpred⟩
      exact absurd hpred (hall a hmem)
  rw [findSaved] at h
  rw [save_pictogram, if_neg (by simp [hany]), findSaved, List.find?_append, h]
  simp [savedKeyMatches]

theorem save_preserves_keyUnique (rows : List SavedPictogramRow) (user : Str) (id : Int)
    (label : Option Str) (h : savedKeyUnique rows) :
    savedKeyUnique (save_pictogram rows user id label) := by
  rw [save_pictogram]
  by_cases hany : rows.any (savedKeyMatches user id) = true
  · rw [if_pos hany]
    refine List.Pairwise.map _ ?_ h
    intro a b hab
    by_cases ha : savedKeyMatches user id a = true <;>
      by_cases hb : savedKeyMatches user id b = true <;>
        simp only [ha, hb, if_true, if_false, Bool.false_eq_true, if_neg] <;>
        exact hab
  · rw [if_neg hany]
    simp only [Bool.not_eq_true] at hany
    have hall : ∀ a ∈ rows, savedKeyMatches user id a = false := by
      intro a hmem
      cases hq : savedKeyMatches user id a
      · rfl
      · exact absurd (List.any_eq_true.mpr ⟨a, hmem, hq⟩) (by simp [hany])
    refine List.pairwise_append.mpr ⟨h, List.pairwise_singleton _ _, ?_⟩
    intro a hmem b hb hkey
    have := hall a hmem
    rcases List.mem_singleton.mp hb with rfl
    rw [savedKeyMatches] at this
    rcases hkey with ⟨h1, h2⟩
    simp [h1, h2] at this

/-- C9: bookmark save is an upsert keeping at most one row per (user, id):
re-saving overwrites the label only when one is provided and never touches
the use counter; in particular saving with a label then re-saving with none
leaves the label and the counter exactly as after the first save. -/
theorem c9_save_pictogram_upsert :
    (∀ rows user id label, savedKeyUnique rows →
        savedKeyUnique (save_pictogram rows user id label)) ∧
    (∀ rows user id label r, findSaved rows user id = some r →
        findSaved (save_pictogram rows user id label) user id =
          some { r with label := match label with | some l => some l | none => r.label }) ∧
    (∀ rows user id label, findSaved rows user id = none →
        findSaved (save_pictogram rows user id label) user id =
          some { user_id := user, arasaac_id := id, label := label, used_count := 0 }) ∧
    (∀ rows user id r₁,
        findSaved (save_pictogram rows user id (some "Lunch".toList)) user id = some r₁ →
        r₁.label = some "Lunch".toList ∧
        findSaved (save_pictogram (save_pictogram rows user id (some "Lunch".toList))
          user id none) user id = some r₁) := by
  refine ⟨save_preserves_keyUnique, findSaved_save_present, findSaved_save_absent, ?_⟩
  intro rows user id r₁ h1
  constructor
  · cases h0 : findSaved rows user id with
    | some r₀ =>
      have := findSaved_save_present rows user id (some "Lunch".toList) r₀ h0
      rw [this] at h1
      cases h1
      rfl
    | none =>
      have := findSaved_save_absent rows user id (some "Lunch".toList) h0
      rw [this] at h1
      cases h1
      rfl
  · have := findSaved_save_present (save_pictogram rows user id (some "Lunch".toList))
      user id none r₁ h1
    simpa using this

/-- C9 witness: the upsert statements evaluated on a one-row concrete table. -/
theorem c9_save_pictogram_upsert_witness :
    savedKeyUnique (save_pictogram [] "u".toList 42 (some "Lunch".toList)) ∧
    findSaved (save_pictogram [] "u".toList 42 (some "Lunch".toList)) "u".toList 42 =
      some { user_id := "u".toList, arasaac_id := 42, label := some "Lunch".toList,
             used_count := 0 } ∧
    (({ user_id := "u".toList, arasaac_id := 42, label := some "Lunch".toList,
        used_count := 0 } : SavedPictogramRow).label = some "Lunch".toList ∧
      findSaved (save_pictogram (save_pictogram [] "u".toList 42 (some "Lunch".toList))
          "u".toList 42 none) "u".toList 42 =
        some { user_id := "u".toList, arasaac_id := 42, label := some "Lunch".toList,
               used_count := 0 }) := by
  refine ⟨?_, ?_, ?_⟩
  · exact c9_save_pictogram_upsert.1 [] "u".toList 42 (some "Lunch".toList)
      (List.Pairwise.nil)
  · exact c9_save_pictogram_upsert.2.2.1 [] "u".toList 42 (some "Lunch".toList) rfl
  · exact c9_save_pictogram_upsert.2.2.2 [] "u".toList 42 _ (by decide)

theorem toNat_ofNat_valid (n : Nat) (h : n < 0xD800) : (Char.ofNat n).toNat = n := by
  have hv : n.isValidChar := Or.inl h
  simp only [Char.ofNat, hv, dite_true, dif_pos]
  rfl

theorem allowed_asciiLower (c : Char) (h : isAsciiAlnum c = true) :
    allowedSlugChar (asciiLowerChar c) = true := by
  rw [isAsciiAlnum] at h
  simp only [Bool.or_eq_true, Bool.and_eq_true, decide_eq_true_eq] at h
  rw [asciiLowerChar]
  rcases h with (⟨h1, h2⟩ | ⟨h1, h2⟩) | ⟨h1, h2⟩
  · rw [if_neg (by omega), allowedSlugChar]
    simp only [Bool.or_eq_true, Bool.and_eq_true, decide_eq_true_eq]
    exact Or.inl (Or.inl (Or.inl ⟨h1, h2⟩))
  · rw [if_pos ⟨h1, h2⟩, allowedSlugChar]
    have ht : (Char.ofNat (c.toNat + 32)).toNat = c.toNat + 32 :=
      toNat_ofNat_valid _ (by omega)
    simp only [Bool.or_eq_true, Bool.and_eq_true, decide_eq_true_eq, ht]
    exact Or.inl (Or.inl (Or.inr ⟨by omega, by omega⟩))
  · rw [if_neg (by omega), allowedSlugChar]
    simp only [Bool.or_eq_true, Bool.and_eq_true, decide_eq_true_eq]
    exact Or.inl (Or.inl (Or.inr ⟨h1, h2⟩))

theorem foldrSanitize_allowed (input : Str) :
    ∀ c ∈ input.foldr (fun c acc =>
        if isAsciiAlnum c || c == '-' || c == '_' then asciiLowerChar c :: acc
        else if isRustWhitespace c then '-' :: acc
        else acc) [], allowedSlugChar c = true := by
  induction input with
  | nil => intro c hc; cases hc
  | cons x xs ih =>
    intro c hc
    rw [List.foldr_cons] at hc
    by_cases h1 : (isAsciiAlnum x || x == '-' || x == '_') = true
    · rw [if_pos h1] at hc
      rcases List.mem_cons.mp hc with rfl | hc
      · rcases Bool.or_eq_true_iff.mp h1 with h | h
        · rcases Bool.or_eq_true_iff.mp h with h | h
          · exact allowed_asciiLower x h
          · have hx : x = '-' := beq_iff_eq.mp h
            subst hx; decide
        · have hx : x = '_' := beq_iff_eq.mp h
          subst hx; decide
      · exact ih c hc
    · rw [if_neg h1] at hc
      by_cases h2 : isRustWhitespace x = true
      · rw [if_pos h2] at hc
        rcases List.mem_cons.mp hc with rfl | hc
        · decide
        · exact ih c hc
      · rw [if_neg h2] at hc
        exact ih c hc

theorem sanitize_chars_allowed (input : Str) :
    ∀ c ∈ sanitize_segment input, allowedSlugChar c = true := by
  intro c hc
  rw [sanitize_segment] at hc
  split at hc
  · have hunc : ∀ x ∈ "uncategorized".toList, allowedSlugChar x = true := by decide
    exact hunc c hc
  · rw [List.mem_reverse] at hc
    have hc2 := (List.dropWhile_sublist _).subset hc
    rw [List.mem_reverse] at hc2
    have hc3 := (List.dropWhile_sublist _).subset hc2
    exact foldrSanitize_allowed input c hc3

theorem sanitize_ne_nil (input : Str) : sanitize_segment input ≠ [] := by
  rw [sanitize_segment]
  split
  · decide
  · rename_i h
    simpa [List.isEmpty_iff] using h

theorem allowed_goodComponent (s : Str) (hne : s ≠ [])
    (hall : ∀ c ∈ s, allowedSlugChar c = true) : goodComponent s := by
  refine ⟨hne, ?_, ?_, ?_⟩
  · intro hmem
    exact absurd (hall _ hmem) (by decide)
  · rintro rfl
    exact absurd (hall '.' (by simp)) (by decide)
  · rintro rfl
    exact absurd (hall '.' (by simp)) (by decide)

theorem stripPrefixList_append (p s : Str) : stripPrefixList p (p ++ s) = some s := by
  induction p with
  | nil => rfl
  | cons a p ih => simp [stripPrefixList, ih]

/-- C10: slugification always yields a non-empty string of lowercase ASCII
alphanumerics, `-` and `_` — a path component holding no separator and never
`.` or `..` — and the public asset path built from it maps by the fixed
prefix substitution to a disk path strictly under the store root. -/
theorem c10_slug_path_safety :
    ∀ input fileSeg, goodComponent fileSeg →
      (sanitize_segment input ≠ [] ∧
       (∀ c ∈ sanitize_segment input, allowedSlugChar c = true) ∧
       goodComponent (sanitize_segment input)) ∧
      disk_path_from_public_path
          (assetPublicBase ++ sanitize_segment input ++ '/' :: fileSeg) =
        some (STORE_ROOT ++ '/' :: (sanitize_segment input ++ '/' :: fileSeg)) ∧
      strictlyUnderRoot STORE_ROOT
        (STORE_ROOT ++ '/' :: (sanitize_segment input ++ '/' :: fileSeg)) := by
  intro input fileSeg hgood
  have hall := sanitize_chars_allowed input
  have hne := sanitize_ne_nil input
  have hslug : goodComponent (sanitize_segment input) := allowed_goodComponent _ hne hall
  refine ⟨⟨hne, hall, hslug⟩, ?_, ?_⟩
  · rw [disk_path_from_public_path, List.append_assoc, stripPrefixList_append]
    rfl
  · exact ⟨sanitize_segment input, fileSeg, by simp [List.append_assoc], hslug, hgood⟩

/-- C10 witness: the path-safety statement evaluated on a hostile category
hint and the asset file name "123.svg". -/
theorem c10_slug_path_safety_witness :
    (sanitize_segment "../<Food & Drink>/..".toList ≠ [] ∧
     (∀ c ∈ sanitize_segment "../<Food & Drink>/..".toList, allowedSlugChar c = true) ∧
     goodComponent (sanitize_segment "../<Food & Drink>/..".toList)) ∧
    disk_path_from_public_path
        (assetPublicBase ++ sanitize_segment "../<Food & Drink>/..".toList ++
          '/' :: "123.svg".toList) =
      some (STORE_ROOT ++ '/' :: (sanitize_segment "../<Food & Drink>/..".toList ++
        '/' :: "123.svg".toList)) ∧
    strictlyUnderRoot STORE_ROOT
      (STORE_ROOT ++ '/' :: (sanitize_segment "../<Food & Drink>/..".toList ++
        '/' :: "123.svg".toList)) :=
  c10_slug_path_safety "../<Food & Drink>/..".toList "123.svg".toList
    (by refine ⟨by decide, by decide, by decide, by decide⟩)

end Pictograms
